import Mathlib

/-!
# Verification of the MERN user-administration backend core

Shallow embedding of the server-side pipeline of the repository
(`server/routes/user.js`, `server/models/User.js`,
`server/middleware/auth.js`): the query builder, pagination/sort helper,
the six route handlers, the JWT-based access guard, and the bcrypt
password handling, together with theorems settling the specification's
claims about them.

Modelling conventions:
* MongoDB document ids are modelled as `Nat`; timestamps as `Nat`
  (milliseconds since epoch, as `Date.now()` returns).
* `bcrypt.hash` is modelled as an uninterpreted injective tagging
  function (the claims never depend on cryptographic properties of the
  hash, only on hash-vs-plaintext distinction and on `compare`).
* JSON response bodies are modelled by the inductive `JVal`; JWTs are
  modelled as a claims list plus a signature value computed by a model
  MAC, which is what `jsonwebtoken`'s sign/verify pair provides at the
  level of the claims.
* Mongoose field validation (name length, email shape, password length,
  role enum) can only reject a request; no claim under consideration
  depends on the rejection path, and it is not modelled.
-/

/-- A JSON value, used to model the JSON bodies the Express handlers
send with `res.json(...)`. -/
inductive JVal where
  | str : String → JVal
  | num : Int → JVal
  | bool : Bool → JVal
  | null : JVal
  | arr : List JVal → JVal
  | obj : List (String × JVal) → JVal
deriving Repr, BEq

mutual

/-- Does the JSON value contain `k` as a key anywhere (at any nesting
depth)?  Used to state that no response payload carries a `password`
field. -/
def jvalHasKey (k : String) : JVal → Bool
  | .obj fs => fieldsHaveKey k fs
  | .arr vs => elemsHaveKey k vs
  | _ => false

/-- Key search over a JSON array's elements. -/
def elemsHaveKey (k : String) : List JVal → Bool
  | [] => false
  | v :: vs => jvalHasKey k v || elemsHaveKey k vs

/-- Key search over a JSON object's fields. -/
def fieldsHaveKey (k : String) : List (String × JVal) → Bool
  | [] => false
  | (key, v) :: fs => key == k || jvalHasKey k v || fieldsHaveKey k fs

end

/-- An HTTP response as produced by the Express handlers:
`res.status(s).json(body)`. -/
structure HttpResponse where
  status : Nat
  body : JVal
deriving Repr

/-- A stored user document (`models/User.js` schema): `password` holds
the bcrypt hash, `createdAt`/`updatedAt` are the `timestamps: true`
fields. -/
structure UserRec where
  id : Nat
  name : String
  email : String
  password : String
  role : String
  isActive : Bool
  createdAt : Nat
  updatedAt : Nat
deriving Repr, DecidableEq

/-- Model of `bcrypt.hash(plain, cost)`: an uninterpreted tagging
function, injective in the plaintext, never equal to the plaintext. -/
def bcryptHash (cost : Nat) (plain : String) : String :=
  "bcrypt$" ++ toString cost ++ "$" ++ plain

/-- Model of `bcrypt.compare(candidate, stored)`: succeeds exactly when
`stored` is the hash of `candidate` (at the cost used by the code). -/
def bcryptCompare (candidate stored : String) : Bool :=
  bcryptHash 12 candidate == stored

/-- `User.findOne({ email })`. -/
def findOneByEmail (st : List UserRec) (email : String) : Option UserRec :=
  st.find? (fun u => u.email == email)

/-- `User.findById(id)`.  The id decoded from a token is an `Int`-valued
claim; a claim value that matches no document resolves to `none` (as a
Mongo CastError / miss does). -/
def findById (st : List UserRec) (i : Int) : Option UserRec :=
  st.find? (fun u => (u.id : Int) == i)

/-! ## Token service (`jsonwebtoken` as used by the code) -/

/-- A JWT as the code observes it: a claims object (string keys,
integer values — the code only ever stores the numeric `id`) plus the
signature over the claims. -/
structure Token where
  claims : List (String × Int)
  sig : Nat
deriving Repr, DecidableEq

/-- Model MAC over the claims list: a deterministic mixing fold keyed by
the signing secret.  Stands in for HMAC-SHA256; no claim depends on
collision resistance, only on `verify` recomputing and comparing it. -/
def tokenMac (key : Nat) (claims : List (String × Int)) : Nat :=
  claims.foldl
    (fun a kv =>
      (a * 131 + kv.1.data.foldl (fun b c => b * 131 + c.toNat) 7) * 131
        + kv.2.natAbs * 2 + (if kv.2 < 0 then 1 else 0))
    (key + 17)

/-- `jwt.sign(claims, key, { expiresIn })`: appends the issued-at and
expiry claims (`expiresIn` in seconds; the code passes `'1h'` = 3600)
and signs the result. -/
def jwtSign (key : Nat) (claims : List (String × Int)) (now expiresInSecs : Nat) :
    Token :=
  let full := claims ++ [("iat", (now : Int)), ("exp", ((now + expiresInSecs : Nat) : Int))]
  { claims := full, sig := tokenMac key full }

/-- `jwt.verify(token, key)`: checks the signature and, when an `exp`
claim is present, that the current time is strictly before it; returns
the decoded claims or fails. -/
def jwtVerify (key now : Nat) (t : Token) : Option (List (String × Int)) :=
  if t.sig == tokenMac key t.claims then
    match t.claims.lookup "exp" with
    | some e => if (now : Int) < e then some t.claims else none
    | none => some t.claims
  else none

/-- Serialise a token into a response body (the code interpolates the
encoded JWT string; its information content is the claims plus the
signature). -/
def tokenToJVal (t : Token) : JVal :=
  .obj [("claims", .obj (t.claims.map (fun kv => (kv.1, .num kv.2)))),
        ("sig", .num (t.sig : Int))]

/-! ## Query builder (`buildQuery` in `routes/user.js`) -/

/-- One pattern character matches one subject character,
case-insensitively; `.` is the regex wildcard.  This models only the
fragment of Mongo `$regex` whose patterns are built from literal
characters and the `.` metacharacter; patterns using any other
metacharacter (`*`, `+`, `?`, `(`, `[`, `\x7b`, `|`, `^`, `$`, `\`)
behave differently in a real regex engine (or are rejected outright)
and are outside this model — every theorem that reasons through the
matcher either instantiates it at a literal-plus-dot pattern or
restricts its pattern to `regexLiteralTerm` terms. -/
def charMatches (p c : Char) : Bool :=
  p == '.' || p.toLower == c.toLower

/-- The pattern matches a prefix of the subject. -/
def matchHere : List Char → List Char → Bool
  | [], _ => true
  | _ :: _, [] => false
  | p :: ps, c :: cs => charMatches p c && matchHere ps cs

/-- Unanchored regex search (Mongo `$regex` with option `i`): the
pattern matches starting at some position of the subject.  Faithful to
`$regex` only on patterns built from literal characters and `.` (see
`charMatches`). -/
def regexSearchCI (pat : List Char) : List Char → Bool
  | [] => matchHere pat []
  | c :: cs => matchHere pat (c :: cs) || regexSearchCI pat cs

/-- The regex metacharacters of the PCRE-style syntax Mongo `$regex`
uses (brace = `\x7b`, i.e. the opening quantifier brace, with its
closing partner; closing bracket and parenthesis included for good
measure). -/
def regexMetachars : List Char :=
  ['.', '*', '+', '?', '(', ')', '[', ']', '\x7b', '\x7d', '|', '^', '$', '\\']

/-- A search term containing no regex metacharacter at all: on such
terms a real regex engine performs exactly a substring search, so the
literal-plus-dot model is faithful to `$regex` on them. -/
def regexLiteralTerm (term : String) : Bool :=
  term.data.all (fun c => !(regexMetachars.contains c))

/-- The Mongo query object built by `buildQuery`: an optional `$or`
search clause, an optional exact `role` clause, an optional exact
`isActive` clause; clauses are conjoined. -/
structure MongoQuery where
  searchTerm : Option String
  role : Option String
  isActive : Option Bool
deriving Repr, DecidableEq

/-- The raw query-string parameters of a `GET /api/users` request
(`req.query`); `none` models an absent parameter, present parameters
are strings. -/
structure ListQueryParams where
  search : Option String := none
  role : Option String := none
  active : Option String := none
  page : Option String := none
  limit : Option String := none
  sort : Option String := none
deriving Repr

/-- JavaScript truthiness of an optional string: absent and the empty
string are falsy. -/
def truthyStr : Option String → Bool
  | none => false
  | some s => s ≠ ""

/-- `buildQuery(req)`: `search` and `role` are guarded by truthiness
(`if (req.query.search)`, `if (req.query.role)`); `active` is guarded
only by presence (`!== undefined`) and compared against the literal
string `'true'`. -/
def buildQuery (q : ListQueryParams) : MongoQuery :=
  { searchTerm := if truthyStr q.search then q.search else none
    role := if truthyStr q.role then q.role else none
    isActive := q.active.map (fun v => v == "true") }

/-- Does a user document satisfy the Mongo query?  The `$or` search
clause is a case-insensitive regex match against name or email; the
other clauses are exact equalities; all present clauses are ANDed. -/
def queryMatches (q : MongoQuery) (u : UserRec) : Bool :=
  (match q.searchTerm with
   | none => true
   | some s => regexSearchCI s.data u.name.data || regexSearchCI s.data u.email.data)
  && (match q.role with
      | none => true
      | some r => u.role == r)
  && (match q.isActive with
      | none => true
      | some b => u.isActive == b)

/-! ## Pagination and sort (`getPaginationSort` in `routes/user.js`) -/

/-- Leading decimal digits of a character list, or `none` when the
first character is not a digit. -/
def leadingNat (cs : List Char) : Option Nat :=
  let ds := cs.takeWhile (·.isDigit)
  if ds.isEmpty then none
  else some (ds.foldl (fun a c => a * 10 + (c.toNat - 48)) 0)

/-- Model of JavaScript `parseInt(x)` on an optional query-string
parameter, for decimal inputs: skip leading whitespace, accept an
optional sign, then parse leading digits; `none` models `NaN` (absent
parameter, no leading digit).  The `0x` hex prefix of the builtin is
not modelled; no input considered here uses it. -/
def parseIntJS : Option String → Option Int
  | none => none
  | some s =>
    match s.data.dropWhile (·.isWhitespace) with
    | '-' :: rest => (leadingNat rest).map (fun n => -(n : Int))
    | '+' :: rest => (leadingNat rest).map (fun n => (n : Int))
    | cs => (leadingNat cs).map (fun n => (n : Int))

/-- JavaScript `parseInt(x) || d`: `NaN` and `0` are falsy and fall
back to the default; every other parsed integer (negative included)
passes through. -/
def jsIntOr (v : Option Int) (d : Int) : Int :=
  match v with
  | none => d
  | some 0 => d
  | some n => n

/-- The sort specification: field name and descending flag.
`req.query.sort` has the form `field:direction`; an empty or absent
parameter falls back to `{ createdAt: -1 }`; a direction other than
`desc` (including a missing `:part`) sorts ascending. -/
def parseSort : Option String → String × Bool
  | none => ("createdAt", true)
  | some s =>
    if s == "" then ("createdAt", true)
    else
      let parts := s.splitOn ":"
      (parts.headD "", parts[1]? == some "desc")

/-- The values `getPaginationSort` computes: effective page, effective
limit, skip, and the sort specification. -/
structure PageSpec where
  page : Int
  limit : Int
  skip : Int
  sortField : String
  sortDesc : Bool
deriving Repr, DecidableEq

/-- `getPaginationSort(req)`:
`page = parseInt(req.query.page) || 1`,
`limit = parseInt(req.query.limit) || 10`,
`skip = (page - 1) * limit`. -/
def getPaginationSort (q : ListQueryParams) : PageSpec :=
  let page := jsIntOr (parseIntJS q.page) 1
  let limit := jsIntOr (parseIntJS q.limit) 10
  let spec := parseSort q.sort
  { page := page, limit := limit, skip := (page - 1) * limit
    sortField := spec.1, sortDesc := spec.2 }

/-- Comparison of two user documents on one schema field (the Mongo
sort key).  An unrecognised field name compares everything equal, which
leaves the store's native order. -/
def fieldLe (field : String) (u v : UserRec) : Bool :=
  match field with
  | "name" => decide (u.name ≤ v.name)
  | "email" => decide (u.email ≤ v.email)
  | "role" => decide (u.role ≤ v.role)
  | "isActive" => !u.isActive || v.isActive
  | "createdAt" => u.createdAt ≤ v.createdAt
  | "updatedAt" => u.updatedAt ≤ v.updatedAt
  | _ => true

/-- The ordering the store applies: the field comparison, flipped when
the direction is descending. -/
def sortLe (field : String) (desc : Bool) (u v : UserRec) : Bool :=
  if desc then fieldLe field v u else fieldLe field u v

/-- Stable insertion into a sorted list. -/
def insertSorted (le : UserRec → UserRec → Bool) (u : UserRec) :
    List UserRec → List UserRec
  | [] => [u]
  | v :: vs => if le u v then u :: v :: vs else v :: insertSorted le u vs

/-- Stable sort by a boolean comparison; models the store's `.sort`. -/
def sortByLe (le : UserRec → UserRec → Bool) : List UserRec → List UserRec
  | [] => []
  | u :: us => insertSorted le u (sortByLe le us)

/-- Mongo cursor `.limit(n)`: `0` means no limit, a negative `n`
behaves as its absolute value. -/
def mongoLimit (n : Int) (l : List UserRec) : List UserRec :=
  if n == 0 then l else l.take n.natAbs

/-- `Math.ceil(total / limit)` over integers (`limit ≠ 0`; `limit = 0`
is unreachable in the code because `0` is falsy and falls back to the
default 10). -/
def jsCeilDiv (total limit : Int) : Int :=
  if limit == 0 then 0 else -((-total).fdiv limit)

/-! ## Access guard (`middleware/auth.js`) -/

/-- `res.status(401).json({ msg: 'No token, authorization denied' })`. -/
def noTokenResp : HttpResponse :=
  { status := 401, body := .obj [("msg", .str "No token, authorization denied")] }

/-- `res.status(401).json({ msg: 'Token is not valid' })` — used both
when `jwt.verify` throws and when the decoded id resolves to no user. -/
def invalidTokenResp : HttpResponse :=
  { status := 401, body := .obj [("msg", .str "Token is not valid")] }

/-- `res.status(403).json({ msg: 'Admin access required' })`. -/
def forbiddenResp : HttpResponse :=
  { status := 403, body := .obj [("msg", .str "Admin access required")] }

/-- `res.status(404).json({ msg: 'User not found' })`. -/
def notFoundResp : HttpResponse :=
  { status := 404, body := .obj [("msg", .str "User not found")] }

/-- `res.status(500).json({ msg: 'Server error' })`. -/
def serverErrorResp : HttpResponse :=
  { status := 500, body := .obj [("msg", .str "Server error")] }

/-- The `auth` middleware: extract the bearer token (absence → 401),
verify it (failure → 401, via the catch block), look up the decoded
`id` claim (a missing claim or an unresolvable id → 401), and attach
the resolved user.  The header's `Bearer `-prefix string transport is
abstracted to an optional token value; a syntactically malformed token
string is one `jwt.verify` rejects, which the signature check covers. -/
def authMiddleware (st : List UserRec) (key now : Nat) (tok : Option Token) :
    Except HttpResponse UserRec :=
  match tok with
  | none => .error noTokenResp
  | some t =>
    match jwtVerify key now t with
    | none => .error invalidTokenResp
    | some claims =>
      match claims.lookup "id" with
      | none => .error invalidTokenResp
      | some i =>
        match findById st i with
        | none => .error invalidTokenResp
        | some u => .ok u

/-- The `adminAuth` middleware: 403 unless the attached user's role is
`admin`; `none` means pass-through (`next()`). -/
def adminAuth (u : UserRec) : Option HttpResponse :=
  if u.role ≠ "admin" then some forbiddenResp else none

/-- Composition of `auth` and `adminAuth` in front of a protected
handler, as `router.get('/', auth, adminAuth, handler)` wires them. -/
def guarded (st : List UserRec) (key now : Nat) (tok : Option Token)
    (handler : UserRec → HttpResponse) : HttpResponse :=
  match authMiddleware st key now tok with
  | .error r => r
  | .ok u =>
    match adminAuth u with
    | some r => r
    | none => handler u

/-! ## Route handlers (`routes/user.js`) -/

/-- The user object inlined in registration and login responses:
`{ id, name, email, role }`. -/
def userAuthView (u : UserRec) : JVal :=
  .obj [("id", .num (u.id : Int)), ("name", .str u.name),
        ("email", .str u.email), ("role", .str u.role)]

/-- A user document after `.select('-password')`: every schema field
except the password hash. -/
def userPublicView (u : UserRec) : JVal :=
  .obj [("id", .num (u.id : Int)), ("name", .str u.name),
        ("email", .str u.email), ("role", .str u.role),
        ("isActive", .bool u.isActive),
        ("createdAt", .num (u.createdAt : Int)),
        ("updatedAt", .num (u.updatedAt : Int))]

/-- The body of `POST /api/users`: `{ name, email, password, role }`
destructured from `req.body`; `role` may be absent. -/
structure RegisterBody where
  name : String
  email : String
  password : String
  role : Option String := none
deriving Repr

/-- `role: role || 'user'` — JavaScript `||`: an absent or empty role
falls back to `'user'`. -/
def roleOrUser (r : Option String) : String :=
  match r with
  | none => "user"
  | some s => if s == "" then "user" else s

/-- Result of the registration core: conflict on a duplicate email, or
the saved document plus the freshly signed token. -/
inductive RegisterOut where
  | conflict
  | created (u : UserRec) (t : Token)
deriving Repr

/-- Core of `router.post('/')`: duplicate-email check via
`User.findOne({ email })`, `new User(...)` + `save()` (the pre-save
hook hashes the password at cost 12; `timestamps: true` sets both
timestamps; the schema lowercases the email), then
`jwt.sign({ id: user.id }, secret, { expiresIn: '1h' })`. -/
def registerCore (st : List UserRec) (key now newId : Nat) (b : RegisterBody) :
    RegisterOut :=
  match findOneByEmail st b.email with
  | some _ => .conflict
  | none =>
    let u : UserRec :=
      { id := newId, name := b.name, email := b.email.toLower
        password := bcryptHash 12 b.password
        role := roleOrUser b.role, isActive := true
        createdAt := now, updatedAt := now }
    .created u (jwtSign key [("id", (newId : Int))] now 3600)

/-- `router.post('/')` as an HTTP endpoint: the response and the store
after the request. -/
def registerHandler (st : List UserRec) (key now newId : Nat) (b : RegisterBody) :
    HttpResponse × List UserRec :=
  match registerCore st key now newId b with
  | .conflict =>
    ({ status := 400, body := .obj [("msg", .str "User already exists")] }, st)
  | .created u t =>
    ({ status := 201
       body := .obj [("token", tokenToJVal t), ("user", userAuthView u)] },
     st ++ [u])

/-- Result of the login core. -/
inductive LoginOut where
  | invalid
  | success (u : UserRec) (t : Token)
deriving Repr

/-- Core of `router.post('/login')`: find by email, compare the
candidate password against the stored bcrypt hash, sign
`{ id: user.id }` with a one-hour expiry. -/
def loginCore (st : List UserRec) (key now : Nat) (email password : String) :
    LoginOut :=
  match findOneByEmail st email with
  | none => .invalid
  | some u =>
    if bcryptCompare password u.password then
      .success u (jwtSign key [("id", (u.id : Int))] now 3600)
    else .invalid

/-- `router.post('/login')` as an HTTP endpoint. -/
def loginHandler (st : List UserRec) (key now : Nat) (email password : String) :
    HttpResponse :=
  match loginCore st key now email password with
  | .invalid =>
    { status := 400, body := .obj [("msg", .str "Invalid credentials")] }
  | .success u t =>
    { status := 200
      body := .obj [("token", tokenToJVal t), ("user", userAuthView u)] }

/-- Core of `router.get('/')` (the listing pipeline) given the already
extracted query and page specification: filter, sort, skip, limit, and
the independent `countDocuments`.  MongoDB rejects a negative skip
(`Skip value must be non-negative`); the driver error lands in the
route's catch block. -/
def listCore (st : List UserRec) (q : MongoQuery) (ps : PageSpec) :
    Except HttpResponse (List UserRec × Nat) :=
  if ps.skip < 0 then .error serverErrorResp
  else
    let matched := st.filter (queryMatches q)
    let sorted := sortByLe (sortLe ps.sortField ps.sortDesc) matched
    .ok (mongoLimit ps.limit (sorted.drop ps.skip.toNat), matched.length)

/-- `router.get('/')` as an HTTP endpoint: builds the query and page
specification from the raw parameters and renders
`{ users, pagination: { current, pages, total } }`. -/
def listHandler (st : List UserRec) (q : ListQueryParams) : HttpResponse :=
  let ps := getPaginationSort q
  match listCore st (buildQuery q) ps with
  | .error r => r
  | .ok (users, total) =>
    { status := 200
      body := .obj
        [("users", .arr (users.map userPublicView)),
         ("pagination", .obj
            [("current", .num (jsIntOr (parseIntJS q.page) 1)),
             ("pages", .num (jsCeilDiv (total : Int) ps.limit)),
             ("total", .num (total : Int))])] }

/-- `router.get('/:id')`: `findById` + `.select('-password')`, 404 on a
miss. -/
def getUserHandler (st : List UserRec) (uid : Int) : HttpResponse :=
  match findById st uid with
  | none => notFoundResp
  | some u => { status := 200, body := userPublicView u }

/-- The body of `PUT /api/users/:id` (`req.body`, spread into the
update): the schema's mutable fields, each optionally supplied. -/
structure UpdateBody where
  name : Option String := none
  email : Option String := none
  password : Option String := none
  role : Option String := none
  isActive : Option Bool := none
deriving Repr

/-- The update body with no fields supplied. -/
def emptyUpdate : UpdateBody := {}

/-- The identifiers `require`d at the top of `routes/user.js`:
`express`, the router, the two middleware functions, the `User` model,
and `jsonwebtoken`.  `bcrypt` is NOT among them — the file never
requires `bcryptjs`. -/
def routeModuleBindings : List String :=
  ["express", "router", "auth", "adminAuth", "User", "jwt"]

/-- Whether the name `bcrypt` is bound in `routes/user.js`'s module
scope.  It is not, so evaluating `bcrypt.hash(...)` throws a
`ReferenceError` at runtime. -/
def bcryptBound : Bool := routeModuleBindings.contains "bcrypt"

/-- The `if (updates.password) { updates.password = await
bcrypt.hash(updates.password, 12); }` step of the PUT handler.
`.error` models the thrown `ReferenceError: bcrypt is not defined`
(caught by the route's catch block); an absent or falsy (empty)
password skips the step. -/
def hashPasswordStep (b : UpdateBody) : Except String UpdateBody :=
  if truthyStr b.password then
    if bcryptBound then
      .ok { b with password := b.password.map (bcryptHash 12) }
    else .error "bcrypt is not defined"
  else .ok b

/-- `findByIdAndUpdate`'s document transformation for
`{ ...updates, updatedAt: Date.now() }`: supplied fields overwrite,
everything else is kept, and the updated-timestamp is always set. -/
def applyUpdate (u : UserRec) (b : UpdateBody) (now : Nat) : UserRec :=
  { u with
    name := b.name.getD u.name
    email := b.email.getD u.email
    password := b.password.getD u.password
    role := b.role.getD u.role
    isActive := b.isActive.getD u.isActive
    updatedAt := now }

/-- Result of the PUT core: the thrown-and-caught server error, a 404
miss, or the updated document. -/
inductive PutOut where
  | thrownErr
  | notFound
  | updated (u : UserRec)
deriving Repr, DecidableEq

/-- Core of `router.put('/:id')`: the password re-hash step (which
throws, `bcrypt` being unbound), then `findByIdAndUpdate` with
`{ new: true }`. -/
def putCore (st : List UserRec) (now : Nat) (uid : Int) (b : UpdateBody) :
    PutOut :=
  match hashPasswordStep b with
  | .error _ => .thrownErr
  | .ok b' =>
    match findById st uid with
    | none => .notFound
    | some u => .updated (applyUpdate u b' now)

/-- `router.put('/:id')` as an HTTP endpoint: the response (updated
document after `.select('-password')`, 404, or 500 from the catch
block) and the store after the request. -/
def putHandler (st : List UserRec) (now : Nat) (uid : Int) (b : UpdateBody) :
    HttpResponse × List UserRec :=
  match putCore st now uid b with
  | .thrownErr => (serverErrorResp, st)
  | .notFound => (notFoundResp, st)
  | .updated u' =>
    ({ status := 200, body := userPublicView u' },
     st.map (fun v => if (v.id : Int) == uid then u' else v))

/-- `router.delete('/:id')` as an HTTP endpoint: `findByIdAndDelete`,
404 on a miss, `{ msg: 'User deleted' }` on success. -/
def deleteHandler (st : List UserRec) (uid : Int) :
    HttpResponse × List UserRec :=
  match findById st uid with
  | none => (notFoundResp, st)
  | some _ =>
    ({ status := 200, body := .obj [("msg", .str "User deleted")] },
     st.filter (fun u => (u.id : Int) != uid))

/-! ## Full protected routes (auth → adminAuth → handler) -/

/-- `GET /api/users` end to end. -/
def listRoute (st : List UserRec) (key now : Nat) (tok : Option Token)
    (q : ListQueryParams) : HttpResponse :=
  guarded st key now tok (fun _ => listHandler st q)

/-- `GET /api/users/:id` end to end. -/
def getUserRoute (st : List UserRec) (key now : Nat) (tok : Option Token)
    (uid : Int) : HttpResponse :=
  guarded st key now tok (fun _ => getUserHandler st uid)

/-- `PUT /api/users/:id` end to end (response component). -/
def putRoute (st : List UserRec) (key now : Nat) (tok : Option Token)
    (uid : Int) (b : UpdateBody) : HttpResponse :=
  guarded st key now tok (fun _ => (putHandler st now uid b).1)

/-- `DELETE /api/users/:id` end to end (response component). -/
def deleteRoute (st : List UserRec) (key now : Nat) (tok : Option Token)
    (uid : Int) : HttpResponse :=
  guarded st key now tok (fun _ => (deleteHandler st uid).1)

/-! ## Spec-side comparator definitions

`containsCI` renders the specification's words "contains the term as a
case-insensitive substring", to be compared against the code's regex
clause. -/

/-- Case-insensitive: the first list is a prefix of the second. -/
def leadsCI : List Char → List Char → Bool
  | [], _ => true
  | _ :: _, [] => false
  | p :: ps, c :: cs => (p.toLower == c.toLower) && leadsCI ps cs

/-- Case-insensitive substring containment (the spec's notion of the
search clause). -/
def containsCI (needle : List Char) : List Char → Bool
  | [] => leadsCI needle []
  | c :: cs => leadsCI needle (c :: cs) || containsCI needle cs

/-! ## Shared lemmas -/

lemma userPublicView_no_password (u : UserRec) :
    jvalHasKey "password" (userPublicView u) = false := by
  simp [userPublicView, jvalHasKey, fieldsHaveKey]

lemma userAuthView_no_password (u : UserRec) :
    jvalHasKey "password" (userAuthView u) = false := by
  simp [userAuthView, jvalHasKey, fieldsHaveKey]

lemma map_userPublicView_no_password (l : List UserRec) :
    elemsHaveKey "password" (l.map userPublicView) = false := by
  induction l with
  | nil => simp [elemsHaveKey]
  | cons u us ih => simp [elemsHaveKey, userPublicView_no_password, ih]

lemma signedToken_no_password (key : Nat) (i : Int) (now e : Nat) :
    jvalHasKey "password" (tokenToJVal (jwtSign key [("id", i)] now e)) = false := by
  simp [tokenToJVal, jwtSign, jvalHasKey, fieldsHaveKey]

lemma tokenUserBody_no_password (key : Nat) (i : Int) (now e : Nat) (u : UserRec) :
    jvalHasKey "password"
      (.obj [("token", tokenToJVal (jwtSign key [("id", i)] now e)),
             ("user", userAuthView u)]) = false := by
  simp [tokenToJVal, jwtSign, userAuthView, jvalHasKey, fieldsHaveKey,
    elemsHaveKey]

lemma authMiddleware_error_resp (st : List UserRec) (key now : Nat)
    (tok : Option Token) (r : HttpResponse)
    (h : authMiddleware st key now tok = .error r) :
    r = noTokenResp ∨ r = invalidTokenResp := by
  unfold authMiddleware at h
  repeat' split at h
  all_goals simp_all

lemma adminAuth_some_resp (u : UserRec) (r : HttpResponse)
    (h : adminAuth u = some r) : r = forbiddenResp := by
  unfold adminAuth at h
  split at h <;> simp_all

lemma guarded_no_password (st : List UserRec) (key now : Nat)
    (tok : Option Token) (handler : UserRec → HttpResponse)
    (hh : ∀ u, jvalHasKey "password" (handler u).body = false) :
    jvalHasKey "password" (guarded st key now tok handler).body = false := by
  unfold guarded
  split
  · next r heq =>
    rcases authMiddleware_error_resp st key now tok r heq with h | h <;>
      subst h <;> simp [noTokenResp, invalidTokenResp, jvalHasKey, fieldsHaveKey]
  · next u heq =>
    split
    · next r heq2 =>
      rw [adminAuth_some_resp u r heq2]
      simp [forbiddenResp, jvalHasKey, fieldsHaveKey]
    · exact hh u

lemma registerCore_created_token (st : List UserRec) (key now newId : Nat)
    (b : RegisterBody) (u : UserRec) (t : Token)
    (h : registerCore st key now newId b = .created u t) :
    t = jwtSign key [("id", (newId : Int))] now 3600 := by
  unfold registerCore at h
  split at h <;> simp_all

lemma loginCore_success_token (st : List UserRec) (key now : Nat)
    (email password : String) (u : UserRec) (t : Token)
    (h : loginCore st key now email password = .success u t) :
    t = jwtSign key [("id", (u.id : Int))] now 3600 := by
  unfold loginCore at h
  repeat' split at h
  all_goals simp_all
  obtain ⟨rfl, rfl⟩ := h
  rfl

lemma listCore_error_resp (st : List UserRec) (q : MongoQuery) (ps : PageSpec)
    (r : HttpResponse) (h : listCore st q ps = .error r) : r = serverErrorResp := by
  unfold listCore at h
  split at h <;> simp_all

lemma listHandler_no_password (st : List UserRec) (q : ListQueryParams) :
    jvalHasKey "password" (listHandler st q).body = false := by
  dsimp only [listHandler]
  split
  · next r heq =>
    rw [listCore_error_resp _ _ _ _ heq]
    simp [serverErrorResp, jvalHasKey, fieldsHaveKey]
  · next users total heq =>
    simp [jvalHasKey, fieldsHaveKey, map_userPublicView_no_password]

lemma getUserHandler_no_password (st : List UserRec) (uid : Int) :
    jvalHasKey "password" (getUserHandler st uid).body = false := by
  unfold getUserHandler
  split
  · simp [notFoundResp, jvalHasKey, fieldsHaveKey]
  · next u heq => exact userPublicView_no_password u

lemma putHandler_no_password (st : List UserRec) (now : Nat) (uid : Int)
    (b : UpdateBody) :
    jvalHasKey "password" (putHandler st now uid b).1.body = false := by
  unfold putHandler
  split
  · simp [serverErrorResp, jvalHasKey, fieldsHaveKey]
  · simp [notFoundResp, jvalHasKey, fieldsHaveKey]
  · next u' heq => exact userPublicView_no_password u'

lemma deleteHandler_no_password (st : List UserRec) (uid : Int) :
    jvalHasKey "password" (deleteHandler st uid).1.body = false := by
  unfold deleteHandler
  split
  · simp [notFoundResp, jvalHasKey, fieldsHaveKey]
  · simp [jvalHasKey, fieldsHaveKey]

/-- C1: no response of any of the six public operations — registration,
login, list users, get user by id, update user, delete user — contains
a `password` key anywhere in its payload: not in a returned user
record, not in the token object, not in pagination metadata, and not in
the fixed error messages (including the guard's 401/403 and the
handlers' 400/404/500 responses). -/
theorem no_password_in_any_response :
    (∀ st key now newId b,
      jvalHasKey "password" (registerHandler st key now newId b).1.body = false)
    ∧ (∀ st key now email password,
      jvalHasKey "password" (loginHandler st key now email password).body = false)
    ∧ (∀ st key now tok q,
      jvalHasKey "password" (listRoute st key now tok q).body = false)
    ∧ (∀ st key now tok uid,
      jvalHasKey "password" (getUserRoute st key now tok uid).body = false)
    ∧ (∀ st key now tok uid b,
      jvalHasKey "password" (putRoute st key now tok uid b).body = false)
    ∧ (∀ st key now tok uid,
      jvalHasKey "password" (deleteRoute st key now tok uid).body = false) := by
  refine ⟨?_, ?_, ?_, ?_, ?_, ?_⟩
  · intro st key now newId b
    unfold registerHandler
    split
    · simp [jvalHasKey, fieldsHaveKey]
    · next u t heq =>
      rw [registerCore_created_token st key now newId b u t heq]
      exact tokenUserBody_no_password key (newId : Int) now 3600 u
  · intro st key now email password
    unfold loginHandler
    split
    · simp [jvalHasKey, fieldsHaveKey]
    · next u t heq =>
      rw [loginCore_success_token st key now email password u t heq]
      exact tokenUserBody_no_password key (u.id : Int) now 3600 u
  · intro st key now tok q
    exact guarded_no_password _ _ _ _ _ (fun _ => listHandler_no_password st q)
  · intro st key now tok uid
    exact guarded_no_password _ _ _ _ _ (fun _ => getUserHandler_no_password st uid)
  · intro st key now tok uid b
    exact guarded_no_password _ _ _ _ _ (fun _ => putHandler_no_password st now uid b)
  · intro st key now tok uid
    exact guarded_no_password _ _ _ _ _ (fun _ => deleteHandler_no_password st uid)

/-! ## Fixtures used by witnesses and counterexamples -/

/-- A stored admin (the seed script's first record, hashed). -/
def sampleAdmin : UserRec :=
  { id := 1, name := "Admin User", email := "admin@example.com"
    password := bcryptHash 12 "admin123", role := "admin"
    isActive := true, createdAt := 100, updatedAt := 100 }

/-- A stored regular user. -/
def sampleJohn : UserRec :=
  { id := 2, name := "John Doe", email := "john@example.com"
    password := bcryptHash 12 "password123", role := "user"
    isActive := true, createdAt := 101, updatedAt := 101 }

/-- A user whose name makes the regex/substring divergence visible. -/
def sampleAbc : UserRec :=
  { id := 9, name := "abc", email := "abc@mail.com"
    password := bcryptHash 12 "password123", role := "user"
    isActive := true, createdAt := 102, updatedAt := 102 }

/-- C4: the access guard fails with 401 when the bearer token is
absent, when verification fails (which includes any token whose
signature does not recompute and any token at or past its expiry), and
when the decoded subject id no longer resolves; and a valid token whose
principal is not an admin yields the 403 Forbidden response from any
guarded route. -/
theorem access_guard_gate :
    (∀ st key now, authMiddleware st key now none = .error noTokenResp)
    ∧ noTokenResp.status = 401
    ∧ (∀ st key now t, jwtVerify key now t = none →
        authMiddleware st key now (some t) = .error invalidTokenResp)
    ∧ (∀ key now t, t.sig ≠ tokenMac key t.claims → jwtVerify key now t = none)
    ∧ (∀ (key now : Nat) (t : Token) (e : Int),
        t.claims.lookup "exp" = some e → e ≤ (now : Int) →
        jwtVerify key now t = none)
    ∧ invalidTokenResp.status = 401
    ∧ (∀ st key now t claims i, jwtVerify key now t = some claims →
        claims.lookup "id" = some i → findById st i = none →
        authMiddleware st key now (some t) = .error invalidTokenResp)
    ∧ (∀ st key now tok u handler, authMiddleware st key now tok = .ok u →
        u.role ≠ "admin" → guarded st key now tok handler = forbiddenResp)
    ∧ forbiddenResp.status = 403 := by
  refine ⟨fun st key now => rfl, rfl, ?_, ?_, ?_, rfl, ?_, ?_, rfl⟩
  · intro st key now t hv
    simp [authMiddleware, hv]
  · intro key now t hs
    simp only [jwtVerify]
    rw [if_neg]
    simpa using hs
  · intro key now t e he hle
    unfold jwtVerify
    split
    · rw [he]
      dsimp only
      rw [if_neg (by omega)]
    · rfl
  · intro st key now t claims i hv hi hf
    simp [authMiddleware, hv, hi, hf]
  · intro st key now tok u handler ha hr
    simp [guarded, ha, adminAuth, hr]

/-- Closed instances of each clause of `access_guard_gate`: the empty
store with key 5 at time 50; a zero-signature token; a token expired at
time 50; a properly signed token whose subject 99 is absent from the
store; and John (role `user`) calling a guarded route with a fresh
valid token. -/
theorem access_guard_gate_witness :
    authMiddleware [sampleJohn] 5 50 none = .error noTokenResp
    ∧ jwtVerify 5 50 { claims := [("id", 7)], sig := 0 } = none
    ∧ authMiddleware [sampleJohn] 5 50
        (some { claims := [("id", 7)], sig := 0 }) = .error invalidTokenResp
    ∧ jwtVerify 5 50 (jwtSign 5 [("id", 2)] 0 30) = none
    ∧ authMiddleware [sampleJohn] 5 50
        (some (jwtSign 5 [("id", 99)] 50 3600)) = .error invalidTokenResp
    ∧ guarded [sampleJohn] 5 50 (some (jwtSign 5 [("id", 2)] 50 3600))
        (fun _ => notFoundResp) = forbiddenResp := by
  refine ⟨?_, ?_, ?_, ?_, ?_, ?_⟩
  · exact access_guard_gate.1 [sampleJohn] 5 50
  · exact access_guard_gate.2.2.2.1 5 50 { claims := [("id", 7)], sig := 0 }
      (by decide)
  · exact access_guard_gate.2.2.1 [sampleJohn] 5 50
      { claims := [("id", 7)], sig := 0 }
      (access_guard_gate.2.2.2.1 5 50 _ (by decide))
  · exact access_guard_gate.2.2.2.2.1 5 50 (jwtSign 5 [("id", 2)] 0 30) 30
      (by decide) (by decide)
  · exact access_guard_gate.2.2.2.2.2.2.1 [sampleJohn] 5 50
      (jwtSign 5 [("id", 99)] 50 3600) [("id", 99), ("iat", 50), ("exp", 3650)]
      99 (by decide) (by decide) (by decide)
  · exact access_guard_gate.2.2.2.2.2.2.2.1 [sampleJohn] 5 50
      (some (jwtSign 5 [("id", 2)] 50 3600)) sampleJohn (fun _ => notFoundResp)
      (by rfl) (by decide)

lemma length_insertSorted (le : UserRec → UserRec → Bool) (u : UserRec)
    (l : List UserRec) : (insertSorted le u l).length = l.length + 1 := by
  induction l with
  | nil => rfl
  | cons v vs ih =>
    unfold insertSorted
    split
    · simp
    · simp [ih]

lemma length_sortByLe (le : UserRec → UserRec → Bool) (l : List UserRec) :
    (sortByLe le l).length = l.length := by
  induction l with
  | nil => rfl
  | cons u us ih => simp [sortByLe, length_insertSorted, ih]

lemma sortByLe_nil (le : UserRec → UserRec → Bool) : sortByLe le [] = [] := rfl

/-- C5: for every predicate, store, sort specification and every
page ≥ 1 and limit ≥ 1, the listing pipeline succeeds (skip is
non-negative), returns at most `limit` records, reports as `total` the
number of records matching the predicate, and the `pages` value the
handler renders (`jsCeilDiv total limit`) is the ceiling of
`total / limit` — characterised by
`limit * (pages - 1) < total ≤ limit * pages` — with a 0 total yielding
an empty record list and 0 pages rather than a failure. -/
theorem listing_pagination_bounds (st : List UserRec) (q : MongoQuery)
    (page limit : Int) (field : String) (desc : Bool)
    (hp : 1 ≤ page) (hl : 1 ≤ limit) :
    ∃ users total,
      listCore st q
        { page := page, limit := limit, skip := (page - 1) * limit
          sortField := field, sortDesc := desc } = .ok (users, total)
      ∧ (users.length : Int) ≤ limit
      ∧ total = (st.filter (queryMatches q)).length
      ∧ limit * (jsCeilDiv (total : Int) limit - 1) < (total : Int)
      ∧ (total : Int) ≤ limit * jsCeilDiv (total : Int) limit
      ∧ (total = 0 → users = [] ∧ jsCeilDiv (total : Int) limit = 0) := by
  have hskip : ¬((page - 1) * limit < 0) := by
    have := mul_nonneg (show (0 : Int) ≤ page - 1 by omega)
      (show (0 : Int) ≤ limit by omega)
    omega
  have hlim : (limit == 0) = false := by
    simp only [beq_eq_false_iff_ne, ne_eq]
    omega
  refine ⟨mongoLimit limit
      ((sortByLe (sortLe field desc) (st.filter (queryMatches q))).drop
        (((page - 1) * limit).toNat)),
    (st.filter (queryMatches q)).length, ?_, ?_, rfl, ?_, ?_, ?_⟩
  · unfold listCore
    dsimp only
    rw [if_neg hskip]
  · -- at most `limit` records
    simp only [mongoLimit, hlim, Bool.false_eq_true, if_false]
    have hle : (List.take limit.natAbs
        ((sortByLe (sortLe field desc) (st.filter (queryMatches q))).drop
          (((page - 1) * limit).toNat))).length ≤ limit.natAbs := by
      rw [List.length_take]
      exact min_le_left _ _
    omega
  · -- limit * (pages - 1) < total
    set a : Int := ((st.filter (queryMatches q)).length : Int) with ha
    have ha0 : 0 ≤ a := by positivity
    simp only [jsCeilDiv, hlim, Bool.false_eq_true, if_false]
    rw [Int.fdiv_eq_ediv _ (by omega : (0 : Int) ≤ limit)]
    have hmod := Int.ediv_add_emod (-a) limit
    have hlt := Int.emod_lt_of_pos (-a) (show (0 : Int) < limit by omega)
    nlinarith [hmod, hlt]
  · -- total ≤ limit * pages
    set a : Int := ((st.filter (queryMatches q)).length : Int) with ha
    simp only [jsCeilDiv, hlim, Bool.false_eq_true, if_false]
    rw [Int.fdiv_eq_ediv _ (by omega : (0 : Int) ≤ limit)]
    have := Int.ediv_mul_le (-a) (show limit ≠ 0 by omega)
    nlinarith [this]
  · -- empty result on zero total
    intro h0
    have hnil : st.filter (queryMatches q) = [] := List.length_eq_zero.mp h0
    constructor
    · simp [hnil, sortByLe_nil, mongoLimit]
    · simp [jsCeilDiv, hlim, Bool.false_eq_true, h0, neg_zero, Int.zero_fdiv]

/-- Closed instance of `listing_pagination_bounds`: John's store, the
match-all query, page 1 and limit 10. -/
theorem listing_pagination_bounds_witness :
    ∃ users total,
      listCore [sampleJohn] { searchTerm := none, role := none, isActive := none }
        { page := 1, limit := 10, skip := 0
          sortField := "createdAt", sortDesc := true } = .ok (users, total)
      ∧ (users.length : Int) ≤ 10
      ∧ total = ([sampleJohn].filter
          (queryMatches { searchTerm := none, role := none, isActive := none })).length
      ∧ 10 * (jsCeilDiv (total : Int) 10 - 1) < (total : Int)
      ∧ (total : Int) ≤ 10 * jsCeilDiv (total : Int) 10
      ∧ (total = 0 → users = [] ∧ jsCeilDiv (total : Int) 10 = 0) := by
  have h := listing_pagination_bounds [sampleJohn]
    { searchTerm := none, role := none, isActive := none }
    1 10 "createdAt" true (by decide) (by decide)
  simpa using h

/-- C9: updating an existing user with an empty field set leaves every
data field — name, email, password hash, role, active flag, created
timestamp — unchanged and touches only the updated-timestamp, and the
endpoint answers 200 with the updated document. -/
theorem empty_update_frame (st : List UserRec) (now : Nat) (uid : Int)
    (u : UserRec) (h : findById st uid = some u) :
    putCore st now uid emptyUpdate = .updated { u with updatedAt := now }
    ∧ (putHandler st now uid emptyUpdate).1.status = 200 := by
  have hcore : putCore st now uid emptyUpdate = .updated { u with updatedAt := now } := by
    unfold putCore hashPasswordStep
    simp only [emptyUpdate, truthyStr]
    rw [h]
    simp [applyUpdate]
  refine ⟨hcore, ?_⟩
  unfold putHandler
  rw [hcore]

/-- Closed instance of `empty_update_frame`: an empty update of John at
time 999 changes nothing but the updated-timestamp. -/
theorem empty_update_frame_witness :
    putCore [sampleJohn] 999 2 emptyUpdate
      = .updated { sampleJohn with updatedAt := 999 }
    ∧ (putHandler [sampleJohn] 999 2 emptyUpdate).1.status = 200 :=
  empty_update_frame [sampleJohn] 999 2 sampleJohn (by decide)

/-- C10: a registration request on the public unauthenticated endpoint
that supplies `role: 'admin'` is persisted with role `admin` — the
client-supplied role is honored, not forced to the default `user` — and
the 201 response's user object carries that role. -/
theorem register_honors_admin_role (st : List UserRec) (key now newId : Nat)
    (name email password : String)
    (h : findOneByEmail st email = none) :
    ∃ u t,
      registerCore st key now newId
        { name := name, email := email, password := password
          role := some "admin" } = .created u t
      ∧ u.role = "admin"
      ∧ (registerHandler st key now newId
          { name := name, email := email, password := password
            role := some "admin" }).1.status = 201
      ∧ (registerHandler st key now newId
          { name := name, email := email, password := password
            role := some "admin" }).1.body
          = .obj [("token", tokenToJVal t), ("user", userAuthView u)]
      ∧ (registerHandler st key now newId
          { name := name, email := email, password := password
            role := some "admin" }).2 = st ++ [u] := by
  have hcore : registerCore st key now newId
      { name := name, email := email, password := password
        role := some "admin" }
      = .created
        { id := newId, name := name, email := email.toLower
          password := bcryptHash 12 password, role := "admin"
          isActive := true, createdAt := now, updatedAt := now }
        (jwtSign key [("id", (newId : Int))] now 3600) := by
    unfold registerCore
    rw [h]
    simp [roleOrUser]
  refine ⟨_, _, hcore, rfl, ?_, ?_, ?_⟩ <;>
    · unfold registerHandler
      rw [hcore]

/-- Closed instance of `register_honors_admin_role`: registering
`eve@example.com` with role `admin` against John's store. -/
theorem register_honors_admin_role_witness :
    ∃ u t,
      registerCore [sampleJohn] 5 500 3
        { name := "Eve", email := "eve@example.com", password := "hunter22"
          role := some "admin" } = .created u t
      ∧ u.role = "admin"
      ∧ (registerHandler [sampleJohn] 5 500 3
          { name := "Eve", email := "eve@example.com", password := "hunter22"
            role := some "admin" }).1.status = 201
      ∧ (registerHandler [sampleJohn] 5 500 3
          { name := "Eve", email := "eve@example.com", password := "hunter22"
            role := some "admin" }).1.body
          = .obj [("token", tokenToJVal t), ("user", userAuthView u)]
      ∧ (registerHandler [sampleJohn] 5 500 3
          { name := "Eve", email := "eve@example.com", password := "hunter22"
            role := some "admin" }).2 = [sampleJohn] ++ [u] :=
  register_honors_admin_role [sampleJohn] 5 500 3 "Eve" "eve@example.com"
    "hunter22" (by decide)

/-- C3 (code bug): `routes/user.js` never requires `bcryptjs`, so the
PUT handler's `bcrypt.hash(updates.password, 12)` line throws
`ReferenceError: bcrypt is not defined` whenever the update supplies a
(truthy) password.  At the concrete failing input — updating John's
password to `newpass123` — the catch block answers 500 Server error and
the store is left unchanged: no re-hash, no update, contradicting both
the claim and the code's own `// Re-hash if password updated` comment. -/
theorem put_password_update_throws :
    bcryptBound = false
    ∧ putCore [sampleJohn] 999 2 { password := some "newpass123" } = .thrownErr
    ∧ (putHandler [sampleJohn] 999 2 { password := some "newpass123" }).1
        = serverErrorResp
    ∧ serverErrorResp.status = 500
    ∧ (putHandler [sampleJohn] 999 2 { password := some "newpass123" }).2
        = [sampleJohn] := by
  refine ⟨rfl, rfl, rfl, rfl, rfl⟩

/-- C2 counterexample: the claim says each issued token's payload
embeds the subject's role; at the concrete registration of `Al` (and at
Admin's concrete login) the signed payload is `{id, iat, exp}` — its
`role` lookup is `none`. -/
theorem token_payload_lacks_role_cex :
    (∃ u t,
      registerCore [] 5 1000 7
        { name := "Al", email := "al@example.com", password := "secret1" }
        = .created u t
      ∧ t.claims.lookup "role" = none
      ∧ t.claims.map Prod.fst = ["id", "iat", "exp"])
    ∧ (∃ u t,
      loginCore [sampleAdmin] 5 1000 "admin@example.com" "admin123"
        = .success u t
      ∧ t.claims.lookup "role" = none) := by
  exact ⟨⟨_, _, rfl, by decide, by decide⟩, ⟨_, _, rfl, by decide⟩⟩

/-- C2 amended: every token issued at registration or login embeds the
subject id and an expiry exactly one hour (3600 s) from issuance, but
NOT the subject's role — the payload is `{id, iat, exp}` and a `role`
lookup finds nothing. -/
theorem token_payload_contents (st : List UserRec) (key now newId : Nat)
    (b : RegisterBody) (email password : String)
    (hreg : findOneByEmail st b.email = none) :
    (∃ u t, registerCore st key now newId b = .created u t
      ∧ t.claims.lookup "id" = some (newId : Int)
      ∧ t.claims.lookup "exp" = some ((now + 3600 : Nat) : Int)
      ∧ t.claims.lookup "role" = none)
    ∧ (∀ u t, loginCore st key now email password = .success u t →
        t.claims.lookup "id" = some (u.id : Int)
        ∧ t.claims.lookup "exp" = some ((now + 3600 : Nat) : Int)
        ∧ t.claims.lookup "role" = none) := by
  constructor
  · refine ⟨{ id := newId, name := b.name, email := b.email.toLower,
                password := bcryptHash 12 b.password,
                role := roleOrUser b.role, isActive := true,
                createdAt := now, updatedAt := now },
      jwtSign key [("id", (newId : Int))] now 3600, ?_, ?_, ?_, ?_⟩
    · unfold registerCore
      rw [hreg]
    all_goals simp [jwtSign, List.lookup]
  · intro u t hsucc
    rw [loginCore_success_token st key now email password u t hsucc]
    refine ⟨?_, ?_, ?_⟩ <;> simp [jwtSign, List.lookup]

/-- Closed instance of `token_payload_contents`: Al's registration and
Admin's login against Admin's store at time 1000 with key 5. -/
theorem token_payload_contents_witness :
    (∃ u t, registerCore [sampleAdmin] 5 1000 7
        { name := "Al", email := "al@example.com", password := "secret1" }
        = .created u t
      ∧ t.claims.lookup "id" = some (7 : Int)
      ∧ t.claims.lookup "exp" = some ((1000 + 3600 : Nat) : Int)
      ∧ t.claims.lookup "role" = none)
    ∧ (∀ u t,
        loginCore [sampleAdmin] 5 1000 "admin@example.com" "admin123"
          = .success u t →
        t.claims.lookup "id" = some (u.id : Int)
        ∧ t.claims.lookup "exp" = some ((1000 + 3600 : Nat) : Int)
        ∧ t.claims.lookup "role" = none) :=
  token_payload_contents [sampleAdmin] 5 1000 7
    { name := "Al", email := "al@example.com", password := "secret1" }
    "admin@example.com" "admin123" (by decide)

/-- C6 counterexample: the raw page parameter `"-5"` parses to `-5`,
which is truthy, so `parseInt(page) || 1` passes it through unclamped:
the effective page is `-5` (not ≥ 1) and the computed skip is `-60`
(negative), falsifying the claim that the effective page is always
clamped to at least 1. -/
theorem page_not_clamped_cex :
    parseIntJS (some "-5") = some (-5)
    ∧ (getPaginationSort { page := some "-5" }).page = -5
    ∧ ¬(1 ≤ (getPaginationSort { page := some "-5" }).page)
    ∧ (getPaginationSort { page := some "-5" }).skip = -60
    ∧ (getPaginationSort { page := some "-5" }).skip < 0 := by
  refine ⟨by decide, by decide, by decide, by decide, by decide⟩

/-- C6 amended: the effective page defaults to 1 exactly when the raw
parameter is absent, non-numeric, or parses to 0 (all falsy under
`||`); any other parsed integer — negative included — passes through
unclamped, so skip is guaranteed non-negative only when the effective
page is at least 1 (and limit non-negative), not for every raw
parameter. -/
theorem page_default_or_passthrough (ps ls : Option String) :
    (parseIntJS ps = none ∨ parseIntJS ps = some 0 →
      (getPaginationSort { page := ps, limit := ls }).page = 1)
    ∧ (∀ n : Int, parseIntJS ps = some n → n ≠ 0 →
      (getPaginationSort { page := ps, limit := ls }).page = n)
    ∧ (1 ≤ (getPaginationSort { page := ps, limit := ls }).page →
      0 ≤ (getPaginationSort { page := ps, limit := ls }).limit →
      0 ≤ (getPaginationSort { page := ps, limit := ls }).skip) := by
  refine ⟨?_, ?_, ?_⟩
  · rintro (h | h) <;> simp [getPaginationSort, h, jsIntOr]
  · intro n hn hne
    simp only [getPaginationSort, hn, jsIntOr]
  · intro h1 h2
    simp only [getPaginationSort] at h1 h2 ⊢
    exact mul_nonneg (by omega) h2

/-- Closed instance of `page_default_or_passthrough`: page `"abc"` is
non-numeric and defaults to 1; page `"-5"` passes through as `-5`; and
at page `"2"`, limit `"10"`, the skip is non-negative. -/
theorem page_default_or_passthrough_witness :
    (getPaginationSort { page := some "abc", limit := some "10" }).page = 1
    ∧ (getPaginationSort { page := some "-5", limit := some "10" }).page = -5
    ∧ 0 ≤ (getPaginationSort { page := some "2", limit := some "10" }).skip := by
  refine ⟨?_, ?_, ?_⟩
  · exact (page_default_or_passthrough (some "abc") (some "10")).1
      (Or.inl (by decide))
  · exact (page_default_or_passthrough (some "-5") (some "10")).2.1
      (-5) (by decide) (by decide)
  · exact (page_default_or_passthrough (some "2") (some "10")).2.2
      (by decide) (by decide)

/-- C7 counterexample: the raw value `"banana"` is neither `"true"`
nor `"false"`, yet the built query carries the clause
`isActive = false` (the claim says it must carry none): it differs from
the query built with the parameter absent, and it rejects the active
Admin record that the absent-parameter query accepts. -/
theorem active_param_not_ignored_cex :
    (buildQuery { active := some "banana" }).isActive = some false
    ∧ buildQuery { active := some "banana" } ≠ buildQuery { active := none }
    ∧ queryMatches (buildQuery { active := some "banana" }) sampleAdmin = false
    ∧ queryMatches (buildQuery { active := none }) sampleAdmin = true := by
  refine ⟨by decide, by decide, by decide, by decide⟩

/-- C7 amended: a present `active` parameter always contributes an
exact-equality clause on the active flag, comparing against the single
literal `"true"`: the value `"true"` filters for active records and
every other value — `"false"` or not — filters for inactive ones; only
an absent parameter contributes no clause. -/
theorem active_param_semantics (v : String) (u : UserRec) :
    (buildQuery { active := some v }).isActive = some (v == "true")
    ∧ queryMatches (buildQuery { active := some v }) u
        = (u.isActive == (v == "true"))
    ∧ (buildQuery { active := none }).isActive = none
    ∧ queryMatches (buildQuery { active := none }) u = true := by
  refine ⟨rfl, ?_, rfl, ?_⟩ <;> simp [buildQuery, queryMatches, truthyStr]

/-- C8 counterexample: the search term `"a.c"` contains the regex
metacharacter `.`; the code's clause (Mongo `$regex` with option `i`)
matches the user named `abc`, although `a.c` is not a case-insensitive
substring of either the name `abc` or the email `abc@mail.com` — so the
clause does not implement substring matching for all terms. -/
theorem search_regex_not_substring_cex :
    queryMatches (buildQuery { search := some "a.c" }) sampleAbc = true
    ∧ containsCI "a.c".data sampleAbc.name.data = false
    ∧ containsCI "a.c".data sampleAbc.email.data = false := by
  refine ⟨by decide, by decide, by decide⟩

lemma matchHere_eq_leadsCI (pat : List Char) (hlit : '.' ∉ pat) :
    ∀ s, matchHere pat s = leadsCI pat s := by
  induction pat with
  | nil => intro s; cases s <;> rfl
  | cons p ps ih =>
    intro s
    have hp : p ≠ '.' := fun h => hlit (h ▸ List.mem_cons_self p ps)
    have hps : '.' ∉ ps := fun h => hlit (List.mem_cons_of_mem p h)
    cases s with
    | nil => rfl
    | cons c cs =>
      simp only [matchHere, leadsCI, charMatches, ih hps]
      have : (p == '.') = false := by
        simp only [beq_eq_false_iff_ne, ne_eq]
        exact hp
      rw [this, Bool.false_or]

lemma regexSearchCI_eq_containsCI (pat : List Char) (hlit : '.' ∉ pat)
    (s : List Char) : regexSearchCI pat s = containsCI pat s := by
  induction s with
  | nil => simp [regexSearchCI, containsCI, matchHere_eq_leadsCI pat hlit]
  | cons c cs ih =>
    simp [regexSearchCI, containsCI, matchHere_eq_leadsCI pat hlit, ih]

/-- C8 amended: the search clause is a case-insensitive regular
expression match (Mongo `$regex`, option `i`) against name OR email,
with the raw term used as the pattern unescaped; only for terms free of
every regex metacharacter (`regexLiteralTerm`) does it coincide with
case-insensitive substring containment of the term in the name or in
the email — on exactly those terms a regex engine degenerates to
substring search, which is where the matcher model is faithful. -/
theorem search_clause_literal_terms (term : String) (u : UserRec)
    (hne : term ≠ "") (hlit : regexLiteralTerm term = true) :
    queryMatches (buildQuery { search := some term }) u
      = (containsCI term.data u.name.data || containsCI term.data u.email.data) := by
  have hdot : '.' ∉ term.data := by
    intro hmem
    simp only [regexLiteralTerm] at hlit
    have h2 := List.all_eq_true.mp hlit '.' hmem
    simp [regexMetachars] at h2
  simp [buildQuery, queryMatches, truthyStr, hne,
    regexSearchCI_eq_containsCI term.data hdot]

/-- Closed instance of `search_clause_literal_terms`: the term `"JO"`
is free of every regex metacharacter and matches John Doe exactly as
case-insensitive substring containment does (and the containment
holds). -/
theorem search_clause_literal_terms_witness :
    regexLiteralTerm "JO" = true
    ∧ queryMatches (buildQuery { search := some "JO" }) sampleJohn
        = (containsCI "JO".data sampleJohn.name.data
            || containsCI "JO".data sampleJohn.email.data)
    ∧ queryMatches (buildQuery { search := some "JO" }) sampleJohn = true := by
  refine ⟨by decide,
    search_clause_literal_terms "JO" sampleJohn (by decide) (by decide), ?_⟩
  decide
